import Mathlib

/-!
Verification of the pagination / sort-and-filter library (`src/lib/paginators.ts`,
`src/lib/sort-and-filter.ts`) against its natural-language specification.

The TypeScript source is shallowly embedded: query-string values are `String`s,
JavaScript numbers appearing here are integers (`Int`/`Nat`), JS `parseInt`,
`String.prototype.split` and `String.prototype.includes` are embedded as
executable Lean functions, the TypeORM `SelectQueryBuilder` is a record of the
ordering / join / where state the library manipulates, and a thrown JS error
(`TypeError` on a null record, or an explicit `throw new Error(...)`) is an
`Except` error value.
-/

namespace NestjsPsf

/-! ## JavaScript string primitives -/

/-- `String.prototype.split` with a one-character separator, on the character
list of the string.  `"".split(c) = [""]`, `"a|".split('|') = ["a", ""]`. -/
def splitChar (sep : Char) : List Char → List (List Char)
  | [] => [[]]
  | c :: rest =>
    let r := splitChar sep rest
    if c = sep then [] :: r else (c :: r.headD []) :: r.tail

theorem splitChar_ne_nil (sep : Char) (l : List Char) : splitChar sep l ≠ [] := by
  cases l with
  | nil => simp [splitChar]
  | cons c rest =>
    simp only [splitChar]
    split <;> simp

theorem splitChar_length (sep : Char) (l : List Char) :
    (splitChar sep l).length = l.count sep + 1 := by
  induction l with
  | nil => simp [splitChar]
  | cons c rest ih =>
    simp only [splitChar]
    by_cases h : c = sep
    · subst h
      simp [List.count_cons, ih]
    · have hne := splitChar_ne_nil sep rest
      rw [if_neg h]
      cases hr : splitChar sep rest with
      | nil => exact absurd hr hne
      | cons a t =>
        rw [hr] at ih
        simp only [List.length_cons] at ih
        simp [List.count_cons, h, ← ih]

/-- `s.split(sep)` for a one-character separator. -/
def jsSplit (s : String) (sep : Char) : List String :=
  (splitChar sep s.data).map List.asString

/-- `s.includes(c)` for a one-character needle. -/
def jsIncludes (s : String) (c : Char) : Bool :=
  s.data.contains c

theorem jsSplit_length_gt_one_iff (s : String) (sep : Char) :
    1 < (jsSplit s sep).length ↔ jsIncludes s sep = true := by
  unfold jsSplit jsIncludes
  have hmem : s.data.contains sep = true ↔ sep ∈ s.data := by simp
  rw [List.length_map, splitChar_length, hmem, ← List.count_pos_iff]
  omega

/-- `String.prototype.split('__')`: splits on each non-overlapping occurrence of
a double underscore, scanning left to right. -/
def splitUU : List Char → List (List Char)
  | [] => [[]]
  | '_' :: '_' :: rest => [] :: splitUU rest
  | c :: rest =>
    let r := splitUU rest
    (c :: r.headD []) :: r.tail

/-- `key.split('__')` as a string function. -/
def jsSplitUU (s : String) : List String :=
  (splitUU s.data).map List.asString

/-- Decimal digits of a character list, read most significant first. -/
def digitsToNat (l : List Char) : Nat :=
  l.foldl (fun acc c => acc * 10 + (c.toNat - '0'.toNat)) 0

/-- JS `parseInt(s)` (radix 10): skip leading spaces, read an optional sign and
then the maximal run of leading decimal digits; `none` models `NaN` (no digit). -/
def jsParseInt (s : String) : Option Int :=
  let l := s.data.dropWhile (fun c => c = ' ')
  match l with
  | '-' :: rest =>
    if (rest.takeWhile Char.isDigit) = [] then none
    else some (-(digitsToNat (rest.takeWhile Char.isDigit) : Int))
  | '+' :: rest =>
    if (rest.takeWhile Char.isDigit) = [] then none
    else some ((digitsToNat (rest.takeWhile Char.isDigit) : Int))
  | _ =>
    if (l.takeWhile Char.isDigit) = [] then none
    else some ((digitsToNat (l.takeWhile Char.isDigit) : Int))

/-! ## The `Paginate` decorator (`src/lib/paginators.ts`, lines 17-33)

`let pageSize = parseInt(req.query.pageSize) || 10;
 if (config.maxPageSize) { pageSize = Math.min(pageSize, config.maxPageSize) }`
-/

/-- The effective page size computed by the `Paginate` decorator.
`queryPageSize = none` models an absent `pageSize` query parameter
(`parseInt(undefined)` is `NaN`, which is falsy, as is a parsed `0`).
`maxPageSize = some 0` is falsy in JS, so the cap is skipped then. -/
def effectivePageSize (queryPageSize : Option String) (maxPageSize : Option Int) : Int :=
  let parsed : Option Int :=
    match queryPageSize with
    | none => none
    | some s => jsParseInt s
  let pageSize : Int :=
    match parsed with
    | none => 10
    | some n => if n = 0 then 10 else n
  match maxPageSize with
  | none => pageSize
  | some m => if m = 0 then pageSize else min pageSize m

/-- The page computed by the `PagedPaginator` constructor
(`this.page = parseInt(params.query.page) || 1`, line 76). -/
def pagedPage (queryPage : Option String) : Int :=
  let parsed : Option Int :=
    match queryPage with
    | none => none
    | some s => jsParseInt s
  match parsed with
  | none => 1
  | some n => if n = 0 then 1 else n

/-! ## `PagedPaginator.paginate` page count (`src/lib/paginators.ts`, lines 87-91)

`this.pageCount = Math.floor((count - 1) / this.pageSize) + 1;
 if (count == 0) { this.pageCount = 0; }`
-/

/-- The `meta.pageCount` value of `PagedPaginator.paginate`.  JS number division
followed by `Math.floor` is flooring integer division (`Int.fdiv`) on the
integer operands at hand. -/
def pagedPageCount (count : Nat) (pageSize : Int) : Int :=
  if count = 0 then 0 else Int.fdiv ((count : Int) - 1) pageSize + 1

/-! ## `CursorPaginator.paginate` (`src/lib/paginators.ts`, lines 208-340)

The embedding covers the `numOrder == 1` branch: the incoming query builder
carries no `orderBy` of its own, so the only ordering is the `id ASC` the
paginator appends (line 212) and the seek predicate is the single comparison
built at lines 238-242, with `comparitor(order, true)`, i.e. `>=` under `ASC`
and `<=` under `DESC` (after `reverseAllOrderBy` for backward traversal).

The data source is a list of record ids given in ascending id order.  A fetch
under the current ordering, WHERE predicate and limit filters that list (or its
reversal) and truncates it.  `.error ()` models a thrown `TypeError` (a property
access on a `null` record). -/

inductive CursorDir
  | next
  | prev
deriving Repr, DecidableEq

/-- The `cursor` / `cursorDir` query parameters.  `cursor` holds the parsed
numeric value of the cursor string (`none` = absent parameter). -/
structure CursorQuery where
  cursor : Option Nat
  cursorDir : Option String
deriving Repr, DecidableEq

/-- `private get cursorDir()` (line 391): `query.cursorDir == 'prev' ? 'prev' : 'next'`. -/
def cursorDirOf (q : CursorQuery) : CursorDir :=
  if q.cursorDir = some "prev" then .prev else .next

/-- The observable page: trimmed record ids in the order they are returned, and
the cursor carried by the `next` / `prev` links (`none` = `null` link; `first` /
`last` carry no cursor and are omitted). -/
structure CursorPage where
  results : List Nat
  next : Option Nat
  prev : Option Nat
deriving Repr, DecidableEq

/-- A `getMany` round trip: the rows of `ds` (stored ascending by id) that
satisfy the WHERE predicate, in ascending (`asc = true`) or descending order,
truncated at `lim` rows. -/
def fetch (ds : List Nat) (asc : Bool) (pred : Nat → Bool) (lim : Nat) : List Nat :=
  ((if asc then ds else ds.reverse).filter pred).take lim

/-- Shallow embedding of `CursorPaginator.paginate` (id-only ordering branch).
Follows the source line by line; the hard-coded indices 10 and 11 at lines
292-325 are reproduced as written.  `pageSize` is `this.params.pageSize`. -/
def cursorPaginate (ds : List Nat) (pageSize : Nat) (q : CursorQuery) :
    Except Unit CursorPage := do
  -- const firstRecord = await (qb.clone()).limit(1).getOne();
  let firstRecord : Option Nat := (fetch ds true (fun _ => true) 1).head?
  -- let cursor = this.params.query.cursor || firstRecord.id;  (|| short-circuits)
  let cursor0 : Nat ←
    match q.cursor with
    | some c => pure c
    | none =>
      match firstRecord with
      | some f => pure f
      | none => throw ()
  -- if (!this.params.query.cursor && this.cursorDir == 'prev') cursor = lastRecord.id;
  let cursor : Nat ←
    if q.cursor = none ∧ cursorDirOf q = .prev then
      match (fetch ds false (fun _ => true) 1).head? with
      | some l => pure l
      | none => throw ()
    else
      pure cursor0
  -- if (cursor): an explicit cursor string is truthy; a numeric id is truthy iff nonzero
  let truthy : Bool :=
    match q.cursor with
    | some _ => true
    | none => cursor ≠ 0
  if truthy then
    match cursorDirOf q with
    | .next =>
      -- ordering id ASC, comparitor('ASC', true) = '>=', limit pageSize + 1
      let fetched := fetch ds true (fun x => cursor ≤ x) (pageSize + 1)
      -- const hasMore = !!results[10]; const nextCursor = results[10];
      let hasMore : Bool := 10 < fetched.length
      let nextLink : Option Nat ←
        if hasMore then
          match fetched[10]? with
          | some nc => pure (some nc)
          | none => throw ()
        else
          pure none
      -- prev: cursor == firstRecord.id ? null : this.linkFor(cursor, 'prev')
      let f : Nat ←
        match firstRecord with
        | some f => pure f
        | none => throw ()
      let prevLink : Option Nat := if cursor = f then none else some cursor
      -- results = results.slice(0, 10);
      pure { results := fetched.take 10, next := nextLink, prev := prevLink }
    | .prev =>
      -- reverseAllOrderBy: ordering id DESC, comparitor('DESC', true) = '<=', limit pageSize + 2
      let fetched := fetch ds false (fun x => x ≤ cursor) (pageSize + 2)
      -- let last = 11; if (!this.params.query.cursor) last = 10;
      let last : Nat := if q.cursor = none then 10 else 11
      -- const hasMore = !!results[last]; const currPageLast = results[last - 1];
      let hasMore : Bool := last < fetched.length
      let prevLink : Option Nat ←
        if hasMore then
          match fetched[last - 1]? with
          | some cp => pure (some cp)
          | none => throw ()
        else
          pure none
      -- next: this.linkFor(cursor, 'next')  (unconditionally non-null)
      let nextLink : Option Nat := some cursor
      -- if (this.params.query.cursor) results.shift();
      let r1 := if q.cursor ≠ none then fetched.drop 1 else fetched
      -- if (hasMore) results.pop();
      let r2 := if hasMore then r1.dropLast else r1
      -- results = results.slice(0, 10); results.reverse();
      pure { results := (r2.take 10).reverse, next := nextLink, prev := prevLink }
  else
    -- the `links` local is never assigned on this path (undefined links)
    pure { results := [], next := none, prev := none }

/-- The results of a cursor page, `[]` when the call threw. -/
def cpResults (r : Except Unit CursorPage) : List Nat :=
  match r with
  | .ok p => p.results
  | .error _ => []

/-- The `next`-link cursor of a cursor page, `none` when the call threw. -/
def cpNext (r : Except Unit CursorPage) : Option Nat :=
  match r with
  | .ok p => p.next
  | .error _ => none

/-- The `prev`-link cursor of a cursor page, `none` when the call threw. -/
def cpPrev (r : Except Unit CursorPage) : Option Nat :=
  match r with
  | .ok p => p.prev
  | .error _ => none

/-- The traversal described by the spec: start with no cursor moving forward and
repeatedly request the page named by the returned `next` link until that link is
`null`, concatenating the returned results (fuel bounds the number of pages; a
thrown error ends the traversal). -/
def collectForward (ds : List Nat) (pageSize : Nat) :
    Nat → Option Nat → List Nat
  | 0, _ => []
  | fuel + 1, c =>
    match cursorPaginate ds pageSize { cursor := c, cursorDir := some "next" } with
    | .error _ => []
    | .ok p =>
      p.results ++
        (match p.next with
         | none => []
         | some nc => collectForward ds pageSize fuel (some nc))

/-! ## Claims C5, C6, C10: page size, page, page count -/

/-- **C6**: for every pageSize `N > 0` and every count `C`,
`PagedPaginator.paginate` sets `meta.pageCount` to `⌈C / N⌉` (`C ⌈/⌉ N` is
Nat ceiling division, which is `0` at `C = 0`), and the implemented expression
`floor((C - 1) / N) + 1` equals `⌈C / N⌉` for every `C > 0`. -/
theorem pagedPageCount_eq_ceil (C N : Nat) (hN : 0 < N) :
    pagedPageCount C (N : Int) = ((C ⌈/⌉ N : Nat) : Int) ∧
    (0 < C → (C - 1) / N + 1 = C ⌈/⌉ N) := by
  have hceil : C ⌈/⌉ N = (C + N - 1) / N := rfl
  have h2 : 0 < C → C + N - 1 = (C - 1) + N := by omega
  constructor
  · unfold pagedPageCount
    by_cases hC : C = 0
    · subst hC
      simp [hceil, Nat.div_eq_of_lt (by omega : N - 1 < N)]
    · rw [if_neg hC, Int.fdiv_eq_ediv _ (by positivity)]
      have h1 : ((C : Int) - 1) = ((C - 1 : Nat) : Int) := by omega
      rw [h1, hceil, h2 (by omega), Nat.add_div_right _ hN]
      push_cast
      ring
  · intro hC
    rw [hceil, h2 hC, Nat.add_div_right _ hN]

/-- **C6 witness**: at `C = 9`, `N = 2` the page count is `⌈9/2⌉ = 5`. -/
theorem pagedPageCount_eq_ceil_witness :
    (0 < 2 ∧
      (pagedPageCount 9 ((2 : Nat) : Int) = ((9 ⌈/⌉ 2 : Nat) : Int) ∧
        (0 < 9 → (9 - 1) / 2 + 1 = 9 ⌈/⌉ 2))) :=
  ⟨by decide, pagedPageCount_eq_ceil 9 2 (by decide)⟩

/-- **C5 counterexample**: a request whose `pageSize` parameter parses to `0` is
not rejected: the decorator silently produces the default effective page size
`10`, and in offset mode a `page` parameter parsing to `0` (which is `< 1`)
silently produces page `1`; no `ValidationError` is surfaced anywhere. -/
theorem pageSize_zero_not_rejected_cex :
    effectivePageSize (some "0") none = 10 ∧ pagedPage (some "0") = 1 := by
  constructor <;> rfl

/-- **C5** (amended): pagination never rejects `pageSize <= 0` or `page < 1`
with a `ValidationError`; instead a `pageSize` parsing to `0` is coerced to the
default `10` and a negative `pageSize` passes through unvalidated, and likewise
a `page` parsing to `0` is coerced to `1` and a negative `page` passes through
(the computations are total and no error channel exists). -/
theorem pageSize_page_no_validation (s t : String) (n : Int)
    (hs : jsParseInt s = some 0) (ht : jsParseInt t = some n) (hn : n < 0) :
    effectivePageSize (some s) none = 10 ∧
    effectivePageSize (some t) none = n ∧
    pagedPage (some s) = 1 ∧
    pagedPage (some t) = n := by
  unfold effectivePageSize pagedPage
  simp [hs, ht]
  omega

/-- **C5 witness**: instantiated at `pageSize=0` and `page=-5`. -/
theorem pageSize_page_no_validation_witness :
    (jsParseInt "0" = some 0 ∧ jsParseInt "-5" = some (-5) ∧ (-5 : Int) < 0) ∧
    (effectivePageSize (some "0") none = 10 ∧
      effectivePageSize (some "-5") none = -5 ∧
      pagedPage (some "0") = 1 ∧
      pagedPage (some "-5") = -5) :=
  ⟨⟨by decide, by decide, by decide⟩,
    pageSize_page_no_validation "0" "-5" (-5) (by decide) (by decide) (by decide)⟩

/-- **C10 counterexample**: with `maxPageSize = 5` configured and the `pageSize`
query parameter absent, the effective page size is `5`, not the `10` the claim
asserts for every request with an absent parameter. -/
theorem default_pageSize_capped_cex :
    effectivePageSize none (some 5) = 5 ∧ (5 : Int) ≠ 10 := by
  constructor <;> decide

/-- The requested page size, `parseInt(req.query.pageSize) || 10` (line 22),
before the `maxPageSize` cap of lines 23-25 is applied: an absent parameter
(`parseInt(undefined)` is `NaN`), a non-numeric parameter, or one parsing to
`0` all being falsy, the default `10` is used; every other parsed value passes
through. -/
def requestedPageSize (queryPageSize : Option String) : Int :=
  match queryPageSize with
  | none => 10
  | some s =>
    match jsParseInt s with
    | none => 10
    | some n => if n = 0 then 10 else n

/-- **C10** (amended): for every request, an absent, non-numeric or zero
`pageSize` parameter defaults the requested page size to `10` (never an
error); with no `maxPageSize` configured the effective page size is exactly
the requested value; and whenever a nonzero `maxPageSize` is configured the
effective page size equals the minimum of the (possibly defaulted) requested
value and `maxPageSize` — for every parameter value, numeric or not — so it
never exceeds the configured maximum. -/
theorem pageSize_default_and_cap (m : Int) (qp : Option String) (hm : 0 < m) :
    requestedPageSize none = 10 ∧
    (∀ s, (jsParseInt s = none ∨ jsParseInt s = some 0) →
      requestedPageSize (some s) = 10) ∧
    effectivePageSize qp none = requestedPageSize qp ∧
    effectivePageSize qp (some m) = min (requestedPageSize qp) m ∧
    effectivePageSize qp (some m) ≤ m := by
  have hm0 : m ≠ 0 := by omega
  have hplain : effectivePageSize qp none = requestedPageSize qp := by
    cases qp with
    | none => rfl
    | some s =>
      unfold effectivePageSize requestedPageSize
      cases jsParseInt s <;> simp
  have hmin : effectivePageSize qp (some m) = min (requestedPageSize qp) m := by
    cases qp with
    | none =>
      unfold effectivePageSize requestedPageSize
      simp [hm0]
    | some s =>
      unfold effectivePageSize requestedPageSize
      cases jsParseInt s with
      | none => simp [hm0]
      | some n => by_cases hn : n = 0 <;> simp [hm0, hn]
  refine ⟨rfl, ?_, hplain, hmin, hmin ▸ min_le_right _ _⟩
  intro s hbad
  unfold requestedPageSize
  rcases hbad with h | h <;> simp [h]

/-- **C10 witness**: instantiated at `maxPageSize = 10` and the numeric
parameter `"3"` (requested value `3`, below the cap, passes through as
`min 3 10 = 3`). -/
theorem pageSize_default_and_cap_witness :
    (0 : Int) < 10 ∧
    (requestedPageSize none = 10 ∧
      (∀ s, (jsParseInt s = none ∨ jsParseInt s = some 0) →
        requestedPageSize (some s) = 10) ∧
      effectivePageSize (some "3") none = requestedPageSize (some "3") ∧
      effectivePageSize (some "3") (some 10) = min (requestedPageSize (some "3")) 10 ∧
      effectivePageSize (some "3") (some 10) ≤ 10) :=
  ⟨by decide, pageSize_default_and_cap 10 (some "3") (by decide)⟩

/-! ## Reduction lemmas for `cursorPaginate` -/

theorem fetch_all_one (ds : List Nat) :
    fetch ds true (fun _ => true) 1 = ds.take 1 := by
  simp [fetch]

theorem fetch_all_one_rev (ds : List Nat) :
    fetch ds false (fun _ => true) 1 = ds.reverse.take 1 := by
  simp [fetch]

/-- Forward traversal from an explicit cursor over a nonempty data source. -/
theorem cursorPaginate_some_next (d : Nat) (t : List Nat) (N c : Nat) :
    cursorPaginate (d :: t) N { cursor := some c, cursorDir := none } =
      .ok { results := (fetch (d :: t) true (fun x => c ≤ x) (N + 1)).take 10,
            next := if 10 < (fetch (d :: t) true (fun x => c ≤ x) (N + 1)).length
                    then (fetch (d :: t) true (fun x => c ≤ x) (N + 1))[10]?
                    else none,
            prev := if c = d then none else some c } := by
  by_cases h10 : 10 < (fetch (d :: t) true (fun x => c ≤ x) (N + 1)).length
  · have hsome := List.getElem?_eq_getElem h10
    simp [pure, Except.pure, bind, Except.bind, cursorPaginate, cursorDirOf, fetch_all_one, h10, hsome]
  · simp [pure, Except.pure, bind, Except.bind, cursorPaginate, cursorDirOf, fetch_all_one, h10]

/-- Backward traversal from an explicit cursor over a nonempty data source. -/
theorem cursorPaginate_some_prev (d : Nat) (t : List Nat) (N c : Nat) :
    cursorPaginate (d :: t) N { cursor := some c, cursorDir := some "prev" } =
      .ok { results :=
              ((if 11 < (fetch (d :: t) false (fun x => x ≤ c) (N + 2)).length
                then ((fetch (d :: t) false (fun x => x ≤ c) (N + 2)).drop 1).dropLast
                else (fetch (d :: t) false (fun x => x ≤ c) (N + 2)).drop 1).take 10).reverse,
            next := some c,
            prev := if 11 < (fetch (d :: t) false (fun x => x ≤ c) (N + 2)).length
                    then (fetch (d :: t) false (fun x => x ≤ c) (N + 2))[10]?
                    else none } := by
  by_cases h11 : 11 < (fetch (d :: t) false (fun x => x ≤ c) (N + 2)).length
  · have hsome := List.getElem?_eq_getElem (by omega : 10 < (fetch (d :: t) false (fun x => x ≤ c) (N + 2)).length)
    simp [pure, Except.pure, bind, Except.bind, cursorPaginate, cursorDirOf, fetch_all_one, h11, hsome]
  · simp [pure, Except.pure, bind, Except.bind, cursorPaginate, cursorDirOf, fetch_all_one, h11]

/-- Forward traversal with no cursor parameter: the anchor is the first record. -/
theorem cursorPaginate_none_next (d : Nat) (t : List Nat) (N : Nat) (hd : d ≠ 0) :
    cursorPaginate (d :: t) N { cursor := none, cursorDir := none } =
      .ok { results := (fetch (d :: t) true (fun x => d ≤ x) (N + 1)).take 10,
            next := if 10 < (fetch (d :: t) true (fun x => d ≤ x) (N + 1)).length
                    then (fetch (d :: t) true (fun x => d ≤ x) (N + 1))[10]?
                    else none,
            prev := none } := by
  by_cases h10 : 10 < (fetch (d :: t) true (fun x => d ≤ x) (N + 1)).length
  · have hsome := List.getElem?_eq_getElem h10
    simp [pure, Except.pure, bind, Except.bind, cursorPaginate, cursorDirOf, fetch_all_one, h10, hsome, hd]
  · simp [pure, Except.pure, bind, Except.bind, cursorPaginate, cursorDirOf, fetch_all_one, h10, hd]

/-- Backward traversal with no cursor parameter: the anchor is the last record
(the head of the reversed ordering probe). -/
theorem cursorPaginate_none_prev (d L : Nat) (t rest : List Nat) (N : Nat)
    (hrev : (d :: t).reverse = L :: rest) (hL : L ≠ 0) :
    cursorPaginate (d :: t) N { cursor := none, cursorDir := some "prev" } =
      .ok { results :=
              ((if 10 < (fetch (d :: t) false (fun x => x ≤ L) (N + 2)).length
                then (fetch (d :: t) false (fun x => x ≤ L) (N + 2)).dropLast
                else fetch (d :: t) false (fun x => x ≤ L) (N + 2)).take 10).reverse,
            next := some L,
            prev := if 10 < (fetch (d :: t) false (fun x => x ≤ L) (N + 2)).length
                    then (fetch (d :: t) false (fun x => x ≤ L) (N + 2))[9]?
                    else none } := by
  by_cases h10 : 10 < (fetch (d :: t) false (fun x => x ≤ L) (N + 2)).length
  · have hsome := List.getElem?_eq_getElem (by omega : 9 < (fetch (d :: t) false (fun x => x ≤ L) (N + 2)).length)
    simp [pure, Except.pure, bind, Except.bind, cursorPaginate, cursorDirOf, fetch_all_one, fetch_all_one_rev, hrev, h10, hsome, hL]
  · simp [pure, Except.pure, bind, Except.bind, cursorPaginate, cursorDirOf, fetch_all_one, fetch_all_one_rev, hrev, h10, hL]

theorem fetch_true (ds : List Nat) (p : Nat → Bool) (lim : Nat) :
    fetch ds true p lim = (ds.filter p).take lim := rfl

theorem fetch_false (ds : List Nat) (p : Nat → Bool) (lim : Nat) :
    fetch ds false p lim = (ds.reverse.filter p).take lim := rfl

theorem head?_take_of_pos {α : Type} (l : List α) (n : Nat) (hn : 0 < n) :
    (l.take n).head? = l.head? := by
  cases l with
  | nil => simp
  | cons a t =>
    cases n with
    | zero => omega
    | succ m => simp

/-- In an ascending list, the first element `>= c` is `c` itself when `c` occurs. -/
theorem head?_filter_le_of_sorted :
    ∀ (ds : List Nat), ds.Sorted (· < ·) → ∀ c ∈ ds,
      (ds.filter (fun x => c ≤ x)).head? = some c := by
  intro ds
  induction ds with
  | nil => intro _ c hc; simp at hc
  | cons a t ih =>
    intro hs c hc
    rw [List.sorted_cons] at hs
    rcases List.mem_cons.mp hc with h | h
    · subst h
      simp [List.filter_cons]
    · have hac : a < c := hs.1 c h
      rw [List.filter_cons, if_neg (by simpa using (by omega : ¬ c ≤ a))]
      exact ih hs.2 c h

/-- In a descending list, the first element `<= c` is `c` itself when `c` occurs. -/
theorem head?_filter_ge_of_sorted_gt :
    ∀ (l : List Nat), l.Sorted (· > ·) → ∀ c ∈ l,
      (l.filter (fun x => x ≤ c)).head? = some c := by
  intro l
  induction l with
  | nil => intro _ c hc; simp at hc
  | cons a t ih =>
    intro hs c hc
    rw [List.sorted_cons] at hs
    rcases List.mem_cons.mp hc with h | h
    · subst h
      simp [List.filter_cons]
    · have hac : a > c := hs.1 c h
      rw [List.filter_cons, if_neg (by simpa using (by omega : ¬ a ≤ c))]
      exact ih hs.2 c h

theorem sorted_gt_reverse (ds : List Nat) (hs : ds.Sorted (· < ·)) :
    ds.reverse.Sorted (· > ·) := by
  rw [List.Sorted, List.pairwise_reverse]
  exact hs

theorem head?_dropLast_of_two_le {α : Type} (l : List α) (h : 2 ≤ l.length) :
    l.dropLast.head? = l.head? := by
  match l with
  | [] => simp at h
  | [a] => simp at h
  | a :: b :: t => simp [List.dropLast]

/-! ## Claims C1-C4: cursor pagination -/

/-- **C1** (code evaluated at the failing input): over the static dataset with
ids 1..12 and pageSize 5, the forward traversal from no cursor ends after a
single page holding the six fetched rows (the has-next probe reads the
hard-coded index 10, which does not exist), so the concatenation of all pages
is `[1..6]` and not the complete dataset. -/
theorem cursor_forward_traversal_truncates :
    collectForward (List.range' 1 12) 5 20 none = [1, 2, 3, 4, 5, 6] ∧
    collectForward (List.range' 1 12) 5 20 none ≠ List.range' 1 12 := by
  constructor <;> decide

/-- **C2** (code evaluated at the failing input): with pageSize 5 over the
dataset 1..6, the forward fetch reads `limit 5 + 1 = 6` rows but the trim is
`slice(0, 10)`, so all 6 rows are returned — more than the claimed maximum of
`pageSize` records. -/
theorem cursor_page_exceeds_pageSize :
    (cpResults (cursorPaginate (List.range' 1 6) 5
      { cursor := none, cursorDir := none })).length = 6 ∧
    5 < (cpResults (cursorPaginate (List.range' 1 6) 5
      { cursor := none, cursorDir := none })).length := by
  constructor <;> decide

/-- **C3 counterexample**: a forward request with the explicit cursor `2` over
the dataset `[1, 2, 3]` returns the cursor record itself (the id comparison is
`>=`, not strict), contradicting the claim that an explicit cursor is excluded
in both directions. -/
theorem cursor_explicit_cursor_included_cex :
    2 ∈ cpResults (cursorPaginate [1, 2, 3] 10
      { cursor := some 2, cursorDir := none }) := by decide

/-- **C3** (amended): the tiebreaker comparison is inclusive (`>=`/`<=`) in the
id-only ordering regardless of whether the cursor was explicit; an explicit
cursor record is therefore *included* as the first fetched row moving forward,
while moving backward it is excluded only because the code shifts it off the
fetched window; with no explicit cursor the synthetic anchor is included, so
the very first (forward) or very last (backward) record appears in the results
of an unparameterized first call. -/
theorem cursor_anchor_inclusion (ds : List Nat) (N c : Nat)
    (hs : ds.Sorted (· < ·)) (h0 : 0 ∉ ds) :
    (c ∈ ds →
      (cpResults (cursorPaginate ds N { cursor := some c, cursorDir := none })).head?
        = some c ∧
      c ∉ cpResults (cursorPaginate ds N { cursor := some c, cursorDir := some "prev" })) ∧
    (ds ≠ [] →
      (cpResults (cursorPaginate ds N { cursor := none, cursorDir := none })).head?
        = ds.head? ∧
      (cpResults (cursorPaginate ds N { cursor := none, cursorDir := some "prev" })).getLast?
        = ds.getLast?) := by
  constructor
  · intro hc
    obtain ⟨d, t, rfl⟩ : ∃ d t, ds = d :: t := by
      cases ds with
      | nil => simp at hc
      | cons d t => exact ⟨d, t, rfl⟩
    constructor
    · rw [cursorPaginate_some_next]
      show ((fetch (d :: t) true (fun x => c ≤ x) (N + 1)).take 10).head? = some c
      rw [head?_take_of_pos _ _ (by omega), fetch_true,
        head?_take_of_pos _ _ (by omega)]
      exact head?_filter_le_of_sorted _ hs c hc
    · rw [cursorPaginate_some_prev]
      show c ∉ ((if 11 < (fetch (d :: t) false (fun x => x ≤ c) (N + 2)).length
                 then ((fetch (d :: t) false (fun x => x ≤ c) (N + 2)).drop 1).dropLast
                 else (fetch (d :: t) false (fun x => x ≤ c) (N + 2)).drop 1).take 10).reverse
      intro hmem
      rw [List.mem_reverse] at hmem
      have hmem1 := List.take_subset _ _ hmem
      have hmem2 : c ∈ (fetch (d :: t) false (fun x => x ≤ c) (N + 2)).drop 1 := by
        by_cases h11 : 11 < (fetch (d :: t) false (fun x => x ≤ c) (N + 2)).length
        · rw [if_pos h11] at hmem1
          exact (List.dropLast_sublist _).subset hmem1
        · rwa [if_neg h11] at hmem1
      have hF : (fetch (d :: t) false (fun x => x ≤ c) (N + 2)).head? = some c := by
        rw [fetch_false, head?_take_of_pos _ _ (by omega)]
        exact head?_filter_ge_of_sorted_gt _ (sorted_gt_reverse _ hs) c
          (List.mem_reverse.mpr hc)
      have hnd : (fetch (d :: t) false (fun x => x ≤ c) (N + 2)).Nodup := by
        rw [fetch_false]
        exact List.Nodup.sublist (List.take_sublist _ _)
          (List.Nodup.filter _ (List.nodup_reverse.mpr hs.nodup))
      obtain ⟨rest, hFr⟩ : ∃ rest,
          fetch (d :: t) false (fun x => x ≤ c) (N + 2) = c :: rest := by
        cases hF' : fetch (d :: t) false (fun x => x ≤ c) (N + 2) with
        | nil => rw [hF'] at hF; simp at hF
        | cons a r =>
          rw [hF'] at hF
          simp only [List.head?_cons, Option.some.injEq] at hF
          exact ⟨r, by rw [hF]⟩
      rw [hFr] at hmem2 hnd
      simp only [List.drop_one, List.tail_cons] at hmem2
      exact (List.nodup_cons.mp hnd).1 hmem2
  · intro hne
    obtain ⟨d, t, rfl⟩ : ∃ d t, ds = d :: t := by
      cases ds with
      | nil => exact absurd rfl hne
      | cons d t => exact ⟨d, t, rfl⟩
    have hd : d ≠ 0 := fun h => h0 (h ▸ List.mem_cons_self d t)
    constructor
    · rw [cursorPaginate_none_next d t N hd]
      show ((fetch (d :: t) true (fun x => d ≤ x) (N + 1)).take 10).head?
        = (d :: t).head?
      rw [head?_take_of_pos _ _ (by omega), fetch_true,
        head?_take_of_pos _ _ (by omega),
        head?_filter_le_of_sorted _ hs d (List.mem_cons_self d t)]
      rfl
    · obtain ⟨L, rest, hrev⟩ : ∃ L rest, (d :: t).reverse = L :: rest := by
        cases hr : (d :: t).reverse with
        | nil => exact absurd (List.reverse_eq_nil_iff.mp hr) (by simp)
        | cons L rest => exact ⟨L, rest, rfl⟩
      have hLmem : L ∈ d :: t := by
        rw [← List.mem_reverse, hrev]
        exact List.mem_cons_self L rest
      have hL : L ≠ 0 := fun h => h0 (h ▸ hLmem)
      rw [cursorPaginate_none_prev d L t rest N hrev hL]
      show ((if 10 < (fetch (d :: t) false (fun x => x ≤ L) (N + 2)).length
             then (fetch (d :: t) false (fun x => x ≤ L) (N + 2)).dropLast
             else fetch (d :: t) false (fun x => x ≤ L) (N + 2)).take 10).reverse.getLast?
        = (d :: t).getLast?
      have hG : (fetch (d :: t) false (fun x => x ≤ L) (N + 2)).head? = some L := by
        rw [fetch_false, head?_take_of_pos _ _ (by omega), hrev, List.filter_cons,
          if_pos (by simp)]
        rfl
      have hlast : (d :: t).getLast? = some L := by
        rw [← List.head?_reverse, hrev]
        rfl
      rw [List.getLast?_reverse, head?_take_of_pos _ _ (by omega), hlast]
      by_cases h10 : 10 < (fetch (d :: t) false (fun x => x ≤ L) (N + 2)).length
      · rw [if_pos h10, head?_dropLast_of_two_le _ (by omega), hG]
      · rw [if_neg h10, hG]

/-- **C3 witness**: instantiated over the dataset `[1, 2, 3]` with cursor `2`. -/
theorem cursor_anchor_inclusion_witness :
    (([1, 2, 3] : List Nat).Sorted (· < ·) ∧ (0 : Nat) ∉ ([1, 2, 3] : List Nat)) ∧
    ((cpResults (cursorPaginate [1, 2, 3] 10 { cursor := some 2, cursorDir := none })).head?
        = some 2 ∧
      2 ∉ cpResults (cursorPaginate [1, 2, 3] 10
        { cursor := some 2, cursorDir := some "prev" })) ∧
    ((cpResults (cursorPaginate [1, 2, 3] 10 { cursor := none, cursorDir := none })).head?
        = ([1, 2, 3] : List Nat).head? ∧
      (cpResults (cursorPaginate [1, 2, 3] 10
        { cursor := none, cursorDir := some "prev" })).getLast?
        = ([1, 2, 3] : List Nat).getLast?) :=
  ⟨⟨by decide, by decide⟩,
    ((cursor_anchor_inclusion [1, 2, 3] 10 2 (by decide) (by decide)).1 (by decide)),
    ((cursor_anchor_inclusion [1, 2, 3] 10 2 (by decide) (by decide)).2 (by decide))⟩

/-- **C4 counterexample**: the cursor `1` resolves to no record of the dataset
`[2, 3]`, yet the forward page is not empty (it holds both records) and the
`prev` link is not null — contradicting the claimed empty page with
`hasNext`/`hasPrev` false. -/
theorem stale_cursor_nonempty_cex :
    (1 ∉ ([2, 3] : List Nat)) ∧
    cpResults (cursorPaginate [2, 3] 10 { cursor := some 1, cursorDir := none }) = [2, 3] ∧
    cpPrev (cursorPaginate [2, 3] 10 { cursor := some 1, cursorDir := none }) = some 1 := by
  refine ⟨by decide, by decide, by decide⟩

/-- **C4** (amended): under the id-only ordering a cursor identifier that
resolves to no record is still used as a plain keyset bound and never raises:
the forward page holds exactly the records beyond the bound (so it is empty
iff every record sorts before the cursor), and the `prev` link is non-null
(it carries the stale cursor back), since the stale cursor cannot equal the
first record's id. -/
theorem stale_cursor_keyset_bound (ds : List Nat) (N c : Nat)
    (hne : ds ≠ []) (hc : c ∉ ds) :
    ∃ p : CursorPage,
      cursorPaginate ds N { cursor := some c, cursorDir := none } = .ok p ∧
      p.prev = some c ∧
      (p.results = [] ↔ ∀ x ∈ ds, x < c) ∧
      (∀ x ∈ p.results, c ≤ x ∧ x ∈ ds) := by
  obtain ⟨d, t, rfl⟩ : ∃ d t, ds = d :: t := by
    cases ds with
    | nil => exact absurd rfl hne
    | cons d t => exact ⟨d, t, rfl⟩
  refine ⟨_, cursorPaginate_some_next d t N c, ?_, ?_, ?_⟩
  · have hcd : c ≠ d := fun h => hc (h ▸ List.mem_cons_self d t)
    simp [hcd]
  · show (fetch (d :: t) true (fun x => c ≤ x) (N + 1)).take 10 = [] ↔ _
    rw [fetch_true, List.take_take, List.take_eq_nil_iff]
    simp only [List.filter_eq_nil_iff, decide_eq_true_eq]
    constructor
    · intro h x hx
      rcases h with h | h
      · omega
      · have := h x hx
        omega
    · intro h
      right
      intro x hx
      have := h x hx
      omega
  · intro x hx
    show c ≤ x ∧ x ∈ d :: t
    rw [fetch_true] at hx
    have hx1 := List.take_subset _ _ (List.take_subset _ _ hx)
    have hx2 := List.mem_filter.mp hx1
    exact ⟨by simpa using hx2.2, hx2.1⟩

/-- **C4 witness**: instantiated over the dataset `[2, 3]` with stale cursor `1`. -/
theorem stale_cursor_keyset_bound_witness :
    (([2, 3] : List Nat) ≠ [] ∧ (1 : Nat) ∉ ([2, 3] : List Nat)) ∧
    ∃ p : CursorPage,
      cursorPaginate [2, 3] 10 { cursor := some 1, cursorDir := none } = .ok p ∧
      p.prev = some 1 ∧
      (p.results = [] ↔ ∀ x ∈ ([2, 3] : List Nat), x < 1) ∧
      (∀ x ∈ p.results, 1 ≤ x ∧ x ∈ ([2, 3] : List Nat)) :=
  ⟨⟨by decide, by decide⟩,
    stale_cursor_keyset_bound [2, 3] 10 1 (by decide) (by decide)⟩

/-! ## `src/lib/sort-and-filter.ts` -/

/-- The closed operator set `SearchOps` (lines 6-18). -/
inductive SearchOps
  | EQUALS
  | NOTEQUALS
  | CONTAINS
  | ICONTAINS
  | GT
  | LT
  | GTE
  | LTE
  | STARTSWITH
  | ENDSWITH
  | HAS
deriving Repr, DecidableEq

/-- The string value of each `SearchOps` member. -/
def SearchOps.str : SearchOps → String
  | .EQUALS => "eq"
  | .NOTEQUALS => "neq"
  | .CONTAINS => "contains"
  | .ICONTAINS => "icontains"
  | .GT => "gt"
  | .LT => "lt"
  | .GTE => "gte"
  | .LTE => "lte"
  | .STARTSWITH => "startswith"
  | .ENDSWITH => "endswith"
  | .HAS => "has"

/-- `Object.values(SearchOps).includes(stringOp)` plus the cast (line 74):
the operator whose string value is `s`, if any. -/
def searchOpOfString? (s : String) : Option SearchOps :=
  if s = "eq" then some .EQUALS
  else if s = "neq" then some .NOTEQUALS
  else if s = "contains" then some .CONTAINS
  else if s = "icontains" then some .ICONTAINS
  else if s = "gt" then some .GT
  else if s = "lt" then some .LT
  else if s = "gte" then some .GTE
  else if s = "lte" then some .LTE
  else if s = "startswith" then some .STARTSWITH
  else if s = "endswith" then some .ENDSWITH
  else if s = "has" then some .HAS
  else none

/-- One parsed filter condition `{ value, op }` (line 22). -/
structure FilterCond where
  op : SearchOps
  value : String
deriving Repr, DecidableEq

/-- `SortAndFilterParams` (lines 20-23): the entries of the `sort` and
`filter` objects in insertion order; `none` models an absent member. -/
structure SortAndFilterParams where
  sort : Option (List (String × String)) := none
  filter : Option (List (String × FilterCond)) := none
deriving Repr, DecidableEq

/-- JS object assignment `obj[k] = v`: overwrite an existing key in place or
append a new entry. -/
def setKey {α : Type} (l : List (String × α)) (k : String) (v : α) : List (String × α) :=
  if l.any (fun kv => kv.1 = k) then
    l.map (fun kv => if kv.1 = k then (k, v) else kv)
  else
    l ++ [(k, v)]

/-- `Array.prototype.join(sep)`. -/
def jsJoin (sep : String) : List String → String
  | [] => ""
  | h :: t => t.foldl (fun acc x => acc ++ sep ++ x) h

/-! ### The `SortAndFilter` decorator filter parser (lines 61-92) -/

/-- Processing of one comma-separated filter clause against the accumulated
filter object: split on the first `:` into key and value (the value keeps any
further `:`), drop the clause when either part is empty, resolve a
`field__operator` key — the part before the `__` always becomes the field name
and the operator token is honoured only when it is in the closed set — and
apply the `filterable` allow-list. -/
def parseFilterClause (filterable : Option (List String))
    (acc : List (String × FilterCond)) (filterColumn : String) :
    List (String × FilterCond) :=
  let splits := jsSplit filterColumn ':'
  let key := splits.headD ""
  let value := jsJoin ":" splits.tail
  if key ≠ "" ∧ value ≠ "" then
    let keyOp : String × SearchOps :=
      if 1 < (jsSplitUU key).length then
        let realKey := (jsSplitUU key).headD ""
        let stringOp := (jsSplitUU key)[1]?.getD ""
        match searchOpOfString? stringOp with
        | some op => (realKey, op)
        | none => (realKey, .EQUALS)
      else
        (key, .EQUALS)
    match filterable with
    | some allowed =>
      if keyOp.1 ∈ allowed then setKey acc keyOp.1 ⟨keyOp.2, value⟩ else acc
    | none => setKey acc keyOp.1 ⟨keyOp.2, value⟩
  else
    acc

/-- `req.query.filter.split(',').forEach(...)` (line 63). -/
def parseFilter (raw : String) (filterable : Option (List String)) :
    List (String × FilterCond) :=
  (jsSplit raw ',').foldl (parseFilterClause filterable) []

/-! ### The query-builder backend (lines 100-195) -/

/-- A bound SQL parameter: a plain string, or the one-element array bound for
the `has` operator (compared with `@>`). -/
inductive FilterVal
  | str : String → FilterVal
  | list : List String → FilterVal
deriving Repr, DecidableEq

/-- One atomic WHERE condition `column op :param`. -/
structure WhereCond where
  column : String
  op : String
  value : FilterVal
deriving Repr, DecidableEq

/-- The `SelectQueryBuilder` state the library manipulates: the root alias
(`qb.alias`; `alias` is a Lean keyword so the field is `tblAlias`), the
`orderBys` object, the registered left joins, and the WHERE expression — a
conjunction of groups, each group a disjunction of atomic conditions; an
`andWhere(new Brackets(qb => ...orWhere...))` appends one group. -/
structure SFQueryBuilder where
  tblAlias : String
  orderBys : List (String × String) := []
  joins : List (String × String) := []
  wheres : List (List WhereCond) := []
deriving Repr, DecidableEq

/-- `searchOpToOperator` (lines 100-112). -/
def searchOpToOperator : SearchOps → String
  | .EQUALS => "="
  | .NOTEQUALS => "!="
  | .CONTAINS => "LIKE"
  | .ICONTAINS => "ILIKE"
  | .GT => ">"
  | .LT => "<"
  | .GTE => ">="
  | .LTE => "<="
  | .STARTSWITH => "LIKE"
  | .ENDSWITH => "LIKE"
  | .HAS => "@>"

/-- `paramTransform` (lines 133-145). -/
def paramTransform (param : String) (op : SearchOps) : String :=
  match op with
  | .CONTAINS => "%" ++ param ++ "%"
  | .ICONTAINS => "%" ++ param ++ "%"
  | .STARTSWITH => param ++ "%"
  | .ENDSWITH => "%" ++ param
  | _ => param

/-- `buildSortAndFilterJoins` (lines 147-154): registers a
`leftJoinAndSelect(alias.related, joinAlias)` and returns the rewritten
`joinAlias.attr` path (only called on dotted paths). -/
def buildSortAndFilterJoins (qb : SFQueryBuilder) (dottedPath : String)
    (aliasKind : String) : SFQueryBuilder × String :=
  let parts := jsSplit dottedPath '.'
  let related := parts.headD ""
  let attr := parts[1]?.getD ""
  let joinAlias := "leftJoinAnd" ++ aliasKind ++ "_" ++ related ++ "_" ++ attr
  ({ qb with joins := qb.joins ++ [(qb.tblAlias ++ "." ++ related, joinAlias)] },
    joinAlias ++ "." ++ attr)

/-- `addOrderBy(key, dir)` (TypeORM keeps an object keyed by column). -/
def addOrderBy (qb : SFQueryBuilder) (key dir : String) : SFQueryBuilder :=
  { qb with orderBys := setKey qb.orderBys key dir }

/-- The sort half of `SelectQueryBuilder.prototype.sortAndFilter`
(lines 157-166). -/
def applySortEntry (qb : SFQueryBuilder) (kv : String × String) : SFQueryBuilder :=
  if jsIncludes kv.1 '.' then
    let r := buildSortAndFilterJoins qb kv.1 "Sort"
    addOrderBy r.1 r.2 kv.2
  else
    addOrderBy qb (qb.tblAlias ++ "." ++ kv.1) kv.2

/-- The per-alternative bound parameter (lines 179-183): `has` binds the
one-element array `[p]`, every other operator binds `paramTransform(p, op)`. -/
def boundParam (op : SearchOps) (p : String) : FilterVal :=
  if op = .HAS then .list [p] else .str (paramTransform p op)

/-- The filter half of `SelectQueryBuilder.prototype.sortAndFilter`
(lines 168-192): one filter entry appends one bracket group whose `orWhere`
conditions come from the pipe-split alternatives of the raw value; the column
is rendered as `${this.alias}.${key}` with `key` first rewritten through the
join builder when it is a dotted path. -/
def applyFilterEntry (qb : SFQueryBuilder) (kv : String × FilterCond) : SFQueryBuilder :=
  let op := searchOpToOperator kv.2.op
  let qbKey : SFQueryBuilder × String :=
    if jsIncludes kv.1 '.' then buildSortAndFilterJoins qb kv.1 "Filter"
    else (qb, kv.1)
  let group := (jsSplit kv.2.value '|').map (fun p =>
    { column := qbKey.1.tblAlias ++ "." ++ qbKey.2
      op := op
      value := boundParam kv.2.op p })
  { qbKey.1 with wheres := qbKey.1.wheres ++ [group] }

/-- `SelectQueryBuilder.prototype.sortAndFilter` (lines 156-195). -/
def sortAndFilterQB (qb : SFQueryBuilder) (params : SortAndFilterParams) :
    SFQueryBuilder :=
  let qb1 :=
    match params.sort with
    | none => qb
    | some s => s.foldl applySortEntry qb
  match params.filter with
  | none => qb1
  | some f => f.foldl applyFilterEntry qb1

/-- Truth of one atomic condition under an abstract row valuation `env`
(the database decides atomic comparisons; the builder only assembles them). -/
def evalCond (env : String → String → FilterVal → Bool) (c : WhereCond) : Bool :=
  env c.column c.op c.value

/-- Truth of the accumulated WHERE expression: every group must hold, and a
group holds when some condition in it does. -/
def evalWheres (env : String → String → FilterVal → Bool)
    (ws : List (List WhereCond)) : Bool :=
  ws.all (fun g => g.any (evalCond env))

/-- Modelled from the spec: the per-operator transformed comparison value the
spec describes — `contains`/`icontains` wrap both sides with a wildcard,
`startswith` appends a trailing wildcard, `endswith` a leading one, `has`
builds a one-element membership list for a multi-valued column, and all other
operators pass the literal value unchanged. -/
def specTransformedValue (op : SearchOps) (p : String) : FilterVal :=
  match op with
  | .CONTAINS => .str ("%" ++ p ++ "%")
  | .ICONTAINS => .str ("%" ++ p ++ "%")
  | .STARTSWITH => .str (p ++ "%")
  | .ENDSWITH => .str ("%" ++ p)
  | .HAS => .list [p]
  | _ => .str p

/-- The column name the builder renders for a filter key. -/
def filterColumnOf (qb : SFQueryBuilder) (key : String) : String :=
  if jsIncludes key '.' then
    qb.tblAlias ++ "." ++ (buildSortAndFilterJoins qb key "Filter").2
  else
    qb.tblAlias ++ "." ++ key

/-! ### The repository (`FindManyOptions`) backend (lines 197-227) -/

/-- A `where` entry of the built `FindManyOptions`: either
`operator(transformedValue)` (operator tag plus bound string) or the plain
one-element array stored for the `has` operator. -/
inductive FindWhereVal
  | oper : SearchOps → String → FindWhereVal
  | list : List String → FindWhereVal
deriving Repr, DecidableEq

/-- The `FindManyOptions` the free `sortAndFilter` builds: the `order` object
and the `where` object (`none` when `params.filter` is absent). -/
structure FindManyOpts where
  order : List (String × String) := []
  whereOpt : Option (List (String × FindWhereVal)) := none
deriving Repr, DecidableEq

/-- The filter loop of the free `sortAndFilter` (lines 207-224): the first raw
value containing a pipe throws (`Repository does not support grouped ...`,
line 215); otherwise each entry is stored transformed. -/
def repoWhere : List (String × FilterCond) → List (String × FindWhereVal) →
    Except String (List (String × FindWhereVal))
  | [], acc => .ok acc
  | (k, fc) :: rest, acc =>
    if jsIncludes fc.value '|' then
      .error "Repository does not support grouped ORs you must use the QueryBuilder."
    else if fc.op = .HAS then
      repoWhere rest (setKey acc k (.list [fc.value]))
    else
      repoWhere rest (setKey acc k (.oper fc.op (paramTransform fc.value fc.op)))

/-- The free function `sortAndFilter` (repository backend, lines 197-227). -/
def sortAndFilterRepo (params : SortAndFilterParams) : Except String FindManyOpts := do
  let order :=
    match params.sort with
    | none => []
    | some s => s.foldl (fun acc kv => setKey acc kv.1 kv.2) []
  match params.filter with
  | none => pure { order := order, whereOpt := none }
  | some f => do
    let w ← repoWhere f []
    pure { order := order, whereOpt := some w }

/-! ## Claims C7, C8, C9 -/

theorem applySortEntry_wheres (qb : SFQueryBuilder) (kv : String × String) :
    (applySortEntry qb kv).wheres = qb.wheres := by
  unfold applySortEntry addOrderBy
  split <;> rfl

theorem applySortEntry_tblAlias (qb : SFQueryBuilder) (kv : String × String) :
    (applySortEntry qb kv).tblAlias = qb.tblAlias := by
  unfold applySortEntry addOrderBy
  split <;> rfl

theorem foldl_applySortEntry_inv :
    ∀ (s : List (String × String)) (qb : SFQueryBuilder),
      (s.foldl applySortEntry qb).wheres = qb.wheres ∧
      (s.foldl applySortEntry qb).tblAlias = qb.tblAlias := by
  intro s
  induction s with
  | nil => intro qb; exact ⟨rfl, rfl⟩
  | cons kv rest ih =>
    intro qb
    simp only [List.foldl_cons]
    exact ⟨by rw [(ih _).1, applySortEntry_wheres],
      by rw [(ih _).2, applySortEntry_tblAlias]⟩

theorem applyFilterEntry_tblAlias (qb : SFQueryBuilder) (kv : String × FilterCond) :
    (applyFilterEntry qb kv).tblAlias = qb.tblAlias := by
  by_cases h : jsIncludes kv.1 '.' <;>
    simp [applyFilterEntry, h, buildSortAndFilterJoins]

theorem applyFilterEntry_wheres (qb : SFQueryBuilder) (kv : String × FilterCond) :
    (applyFilterEntry qb kv).wheres =
      qb.wheres ++ [(jsSplit kv.2.value '|').map (fun p =>
        { column := filterColumnOf qb kv.1
          op := searchOpToOperator kv.2.op
          value := boundParam kv.2.op p })] := by
  by_cases h : jsIncludes kv.1 '.' <;>
    simp [applyFilterEntry, filterColumnOf, h, buildSortAndFilterJoins]

theorem filterColumnOf_eq_of_tblAlias (qb qb' : SFQueryBuilder)
    (h : qb.tblAlias = qb'.tblAlias) :
    filterColumnOf qb = filterColumnOf qb' := by
  funext key
  by_cases hd : jsIncludes key '.' <;>
    simp [filterColumnOf, hd, buildSortAndFilterJoins, h]

theorem evalWheres_append_group (env : String → String → FilterVal → Bool)
    (ws : List (List WhereCond)) (g : List WhereCond) :
    evalWheres env (ws ++ [g]) = (evalWheres env ws && g.any (evalCond env)) := by
  simp [evalWheres]

theorem any_map_general {α β : Type} (f : α → β) (l : List α) (p : β → Bool) :
    (l.map f).any p = l.any (fun a => p (f a)) := by
  induction l with
  | nil => rfl
  | cons a t ih => simp [ih]

theorem evalWheres_foldl_applyFilterEntry (env : String → String → FilterVal → Bool) :
    ∀ (l : List (String × FilterCond)) (qb : SFQueryBuilder),
      evalWheres env (l.foldl applyFilterEntry qb).wheres =
        (evalWheres env qb.wheres &&
          l.all (fun kv => (jsSplit kv.2.value '|').any (fun p =>
            env (filterColumnOf qb kv.1) (searchOpToOperator kv.2.op)
              (boundParam kv.2.op p)))) := by
  intro l
  induction l with
  | nil => intro qb; simp
  | cons kv rest ih =>
    intro qb
    simp only [List.foldl_cons, List.all_cons]
    rw [ih (applyFilterEntry qb kv),
      filterColumnOf_eq_of_tblAlias (applyFilterEntry qb kv) qb
        (applyFilterEntry_tblAlias qb kv),
      applyFilterEntry_wheres, evalWheres_append_group, any_map_general]
    simp [evalCond, Bool.and_assoc]

/-- **C7**: for every query-builder state, every `FilterSpec` and every atomic
valuation, the WHERE expression built by `sortAndFilter` is (on top of the
pre-existing conjuncts) a conjunction over the filter fields; within one field
the raw value splits on the pipe into alternatives combined as a disjunction;
and each alternative is value-transformed per operator exactly as the spec
describes (`specTransformedValue`): contains/icontains wrap with wildcards,
startswith/endswith keep one trailing/leading wildcard, `has` binds a
one-element membership list, all other operators bind the literal. -/
theorem qb_filter_conjunction_of_disjunctions (qb : SFQueryBuilder)
    (params : SortAndFilterParams) (env : String → String → FilterVal → Bool) :
    evalWheres env (sortAndFilterQB qb params).wheres =
      (evalWheres env qb.wheres &&
        (params.filter.getD []).all (fun kv =>
          (jsSplit kv.2.value '|').any (fun p =>
            env (filterColumnOf qb kv.1) (searchOpToOperator kv.2.op)
              (specTransformedValue kv.2.op p)))) := by
  have hval : boundParam = specTransformedValue := by
    funext op p
    cases op <;> rfl
  unfold sortAndFilterQB
  cases hs : params.sort with
  | none =>
    cases hf : params.filter with
    | none => simp
    | some f =>
      simp only [Option.getD_some]
      rw [evalWheres_foldl_applyFilterEntry, hval]
  | some s =>
    cases hf : params.filter with
    | none =>
      simp only [Option.getD_none, List.all_nil, Bool.and_true]
      exact congrArg (evalWheres env) (foldl_applySortEntry_inv s qb).1
    | some f =>
      simp only [Option.getD_some]
      rw [evalWheres_foldl_applyFilterEntry,
        (foldl_applySortEntry_inv s qb).1,
        filterColumnOf_eq_of_tblAlias _ qb (foldl_applySortEntry_inv s qb).2,
        hval]

/-- **C8**: the repository (`FindManyOptions`) backend raises its
unsupported-operation error exactly when some filter field's raw value encodes
more than one pipe-separated alternative; fields with a single alternative
never raise. -/
theorem repo_rejects_or_groups (params : SortAndFilterParams) :
    (∃ e, sortAndFilterRepo params = .error e) ↔
      ∃ kv ∈ params.filter.getD [], 1 < (jsSplit kv.2.value '|').length := by
  have haux : ∀ (l : List (String × FilterCond)) (acc : List (String × FindWhereVal)),
      (∃ e, repoWhere l acc = .error e) ↔
        ∃ kv ∈ l, jsIncludes kv.2.value '|' = true := by
    intro l
    induction l with
    | nil => intro acc; simp [repoWhere]
    | cons kv rest ih =>
      intro acc
      obtain ⟨k, fc⟩ := kv
      by_cases hp : jsIncludes fc.value '|' = true
      · simp [repoWhere, hp]
      · by_cases hop : fc.op = .HAS <;>
          simp [repoWhere, hp, hop, ih]
  cases hf : params.filter with
  | none =>
    simp only [sortAndFilterRepo, hf, Option.getD_none]
    simp [pure, Except.pure]
  | some f =>
    simp only [sortAndFilterRepo, hf, Option.getD_some]
    constructor
    · intro ⟨e, he⟩
      rcases hw : repoWhere f [] with e' | w
      · obtain ⟨kv, hkv, hinc⟩ := (haux f []).mp ⟨e', hw⟩
        exact ⟨kv, hkv, (jsSplit_length_gt_one_iff _ _).mpr hinc⟩
      · rw [hw] at he
        simp [bind, Except.bind, pure, Except.pure] at he
    · intro ⟨kv, hkv, hlen⟩
      have herr := (haux f []).mpr ⟨kv, hkv, (jsSplit_length_gt_one_iff _ _).mp hlen⟩
      obtain ⟨e, he⟩ := herr
      exact ⟨e, by simp [bind, Except.bind, he]⟩

/-- **C9 counterexample**: parsing the clause `name__bogus:5` (whose operator
token `bogus` is not in the closed set) yields the field name `name` — the part
before the `__` — with operator `eq`, and no entry keyed by the entire unsplit
`name__bogus` exists, contradicting the claim. -/
theorem unrecognized_op_key_split_cex :
    parseFilter "name__bogus:5" none = [("name", ⟨SearchOps.EQUALS, "5"⟩)] ∧
    (parseFilter "name__bogus:5" none).all (fun kv => kv.1 ≠ "name__bogus") = true := by
  constructor <;> decide

/-- **C9** (amended): for every filter clause of the form `field__token:value`
where `token` is not a member of the closed operator set, parsing yields a
condition with operator `eq` whose field name is the part of the key *before*
the first `__` (the unrecognized token is discarded, because the code reassigns
the key before checking whether the token is a known operator). -/
theorem unrecognized_op_fallback (clause key k t v : String)
    (h1 : jsSplit clause ',' = [clause])
    (h2 : jsSplit clause ':' = [key, v])
    (h3 : jsSplitUU key = [k, t])
    (h4 : searchOpOfString? t = none)
    (h5 : v ≠ "") :
    parseFilter clause none = [(k, ⟨SearchOps.EQUALS, v⟩)] := by
  have hkey : key ≠ "" := by
    intro h
    rw [h] at h3
    simp [jsSplitUU, splitUU] at h3
  unfold parseFilter
  rw [h1]
  show parseFilterClause none [] clause = _
  unfold parseFilterClause
  rw [h2]
  simp only [List.headD_cons, List.tail_cons, jsJoin, List.foldl_nil, h3,
    List.length_cons, List.length_singleton, List.getElem?_cons_succ,
    List.getElem?_cons_zero, Option.getD_some, List.headD_cons, h4]
  rw [if_pos ⟨hkey, h5⟩, if_pos (by omega)]
  simp [setKey]

/-- **C9 witness**: instantiated at the clause `name__bogus:5`. -/
theorem unrecognized_op_fallback_witness :
    (jsSplit "name__bogus:5" ',' = ["name__bogus:5"] ∧
      jsSplit "name__bogus:5" ':' = ["name__bogus", "5"] ∧
      jsSplitUU "name__bogus" = ["name", "bogus"] ∧
      searchOpOfString? "bogus" = none ∧
      ("5" : String) ≠ "") ∧
    parseFilter "name__bogus:5" none = [("name", ⟨SearchOps.EQUALS, "5"⟩)] :=
  ⟨⟨by decide, by decide, by decide, by decide, by decide⟩,
    unrecognized_op_fallback "name__bogus:5" "name__bogus" "name" "bogus" "5"
      (by decide) (by decide) (by decide) (by decide) (by decide)⟩

end NestjsPsf
